import Mathlib

/-!
Verification of the TaskAPI core (task domain model and storage abstraction).

Shallow embedding of:
  - src/internal/taskdb.py  (InMemoryTaskDB, SQLiteTaskDB, row conversions)
  - src/internal/tasks.py   (Task model, create/get/update/delete services)

Python `datetime` values are modelled at second precision (the spec fixes
`due_date` to "timestamp with second precision"); `isoformat` /
`fromisoformat` are modelled on the fixed-width "YYYY-MM-DDTHH:MM:SS"
rendering that `datetime.isoformat()` produces for microsecond-free values.
-/

namespace TaskAPI

/-- Two-digit zero-padded decimal rendering, as used by `datetime.isoformat`. -/
def digits2 (n : Nat) : List Char :=
  [Nat.digitChar (n / 10 % 10), Nat.digitChar (n % 10)]

/-- Four-digit zero-padded decimal rendering, as used by `datetime.isoformat`. -/
def digits4 (n : Nat) : List Char :=
  [Nat.digitChar (n / 1000 % 10), Nat.digitChar (n / 100 % 10),
   Nat.digitChar (n / 10 % 10), Nat.digitChar (n % 10)]

/-- Numeric value of a decimal digit character (used when parsing). -/
def digitVal (c : Char) : Nat := c.toNat - 48

/-- Python `datetime.datetime` at second precision.  The `valid` field
carries the range checks that the `datetime` constructor enforces
(`MINYEAR = 1`, `MAXYEAR = 9999`, months 1..12, days 1..31, and clock
fields in range). -/
structure DateTime where
  year : Nat
  month : Nat
  day : Nat
  hour : Nat
  minute : Nat
  second : Nat
  valid : 1 ≤ year ∧ year ≤ 9999 ∧ 1 ≤ month ∧ month ≤ 12 ∧
    1 ≤ day ∧ day ≤ 31 ∧ hour ≤ 23 ∧ minute ≤ 59 ∧ second ≤ 59

theorem DateTime.ext_iff' (a b : DateTime) :
    a = b ↔ a.year = b.year ∧ a.month = b.month ∧ a.day = b.day ∧
      a.hour = b.hour ∧ a.minute = b.minute ∧ a.second = b.second := by
  constructor
  · rintro rfl; exact ⟨rfl, rfl, rfl, rfl, rfl, rfl⟩
  · cases a; cases b
    rintro ⟨rfl, rfl, rfl, rfl, rfl, rfl⟩
    rfl

instance : DecidableEq DateTime := fun a b =>
  decidable_of_iff _ (DateTime.ext_iff' a b).symm

instance : Inhabited DateTime :=
  ⟨⟨1, 1, 1, 0, 0, 0, by omega⟩⟩

/-- `datetime.isoformat()` for a microsecond-free value:
`"YYYY-MM-DDTHH:MM:SS"`. -/
def DateTime.isoformat (d : DateTime) : String :=
  ⟨digits4 d.year ++ '-' :: digits2 d.month ++ '-' :: digits2 d.day ++
    'T' :: digits2 d.hour ++ ':' :: digits2 d.minute ++ ':' :: digits2 d.second⟩

/-- `datetime.fromisoformat` on the fixed-width second-precision format
(the only shape this codebase ever persists); any other input fails. -/
def DateTime.fromisoformat (s : String) : Option DateTime :=
  match s.data with
  | [y1, y2, y3, y4, '-', m1, m2, '-', d1, d2, 'T', h1, h2, ':', n1, n2, ':', s1, s2] =>
    let y := 1000 * digitVal y1 + 100 * digitVal y2 + 10 * digitVal y3 + digitVal y4
    let mo := 10 * digitVal m1 + digitVal m2
    let dy := 10 * digitVal d1 + digitVal d2
    let hr := 10 * digitVal h1 + digitVal h2
    let mi := 10 * digitVal n1 + digitVal n2
    let se := 10 * digitVal s1 + digitVal s2
    if h : 1 ≤ y ∧ y ≤ 9999 ∧ 1 ≤ mo ∧ mo ≤ 12 ∧ 1 ≤ dy ∧ dy ≤ 31 ∧
        hr ≤ 23 ∧ mi ≤ 59 ∧ se ≤ 59 then
      some ⟨y, mo, dy, hr, mi, se, h⟩
    else
      none
  | _ => none

theorem digitVal_digitChar {n : Nat} (h : n < 10) :
    digitVal (Nat.digitChar n) = n := by
  interval_cases n <;> rfl

/-- Round-trip: parsing the iso rendering of a datetime gives it back. -/
theorem fromisoformat_isoformat (d : DateTime) :
    DateTime.fromisoformat d.isoformat = some d := by
  obtain ⟨y, mo, dy, hr, mi, se, hv⟩ := d
  obtain ⟨h1, h2, h3, h4, h5, h6, h7, h8, h9⟩ := hv
  simp only [DateTime.isoformat, DateTime.fromisoformat, digits4, digits2,
    List.cons_append, List.nil_append]
  rw [digitVal_digitChar (Nat.mod_lt _ (by omega)),
      digitVal_digitChar (Nat.mod_lt _ (by omega)),
      digitVal_digitChar (Nat.mod_lt _ (by omega)),
      digitVal_digitChar (Nat.mod_lt _ (by omega)),
      digitVal_digitChar (Nat.mod_lt _ (by omega)),
      digitVal_digitChar (Nat.mod_lt _ (by omega)),
      digitVal_digitChar (Nat.mod_lt _ (by omega)),
      digitVal_digitChar (Nat.mod_lt _ (by omega)),
      digitVal_digitChar (Nat.mod_lt _ (by omega)),
      digitVal_digitChar (Nat.mod_lt _ (by omega)),
      digitVal_digitChar (Nat.mod_lt _ (by omega)),
      digitVal_digitChar (Nat.mod_lt _ (by omega)),
      digitVal_digitChar (Nat.mod_lt _ (by omega)),
      digitVal_digitChar (Nat.mod_lt _ (by omega))]
  have hy : 1000 * (y / 1000 % 10) + 100 * (y / 100 % 10) + 10 * (y / 10 % 10) + y % 10 = y := by
    omega
  have hmo : 10 * (mo / 10 % 10) + mo % 10 = mo := by omega
  have hdy : 10 * (dy / 10 % 10) + dy % 10 = dy := by omega
  have hhr : 10 * (hr / 10 % 10) + hr % 10 = hr := by omega
  have hmi : 10 * (mi / 10 % 10) + mi % 10 = mi := by omega
  have hse : 10 * (se / 10 % 10) + se % 10 = se := by omega
  simp only [hy, hmo, hdy, hhr, hmi, hse]
  rw [dif_pos ⟨h1, h2, h3, h4, h5, h6, h7, h8, h9⟩]

/-- `PrioEnum` from src/internal/tasks.py (`IntEnum`: high = 1, medium = 2,
low = 3). -/
inductive PrioEnum where
  | high
  | medium
  | low
deriving DecidableEq, Fintype

/-- The integer value of a `PrioEnum` member (`int(priority)`). -/
def PrioEnum.val : PrioEnum → Nat
  | .high => 1
  | .medium => 2
  | .low => 3

/-- `PrioEnum(n)`: the member with value `n`, if any (Python raises on any
other value; the SQLite CHECK constraint keeps stored values in {1,2,3}). -/
def PrioEnum.ofVal (n : Nat) : Option PrioEnum :=
  if n = 1 then some .high
  else if n = 2 then some .medium
  else if n = 3 then some .low
  else none

/-- `Task` from src/internal/tasks.py (pydantic `BaseModel`; every field is
always populated, `description` is the only nullable one). -/
structure Task where
  id : Int
  title : String
  description : Option String
  priority : PrioEnum
  due_date : DateTime
  completed : Bool
deriving DecidableEq

/-- `CreateTaskReq` from src/internal/tasks.py. -/
structure CreateTaskReq where
  title : String
  description : Option String
  priority : PrioEnum
  due_date : DateTime
deriving DecidableEq

/-- `UpdateTaskReq` from src/internal/tasks.py: every updatable field is
nullable, and a null field means "leave unchanged" (there is no separate
"absent" marker distinct from null in the model). -/
structure UpdateTaskReq where
  id : Int
  title : Option String
  description : Option String
  priority : Option PrioEnum
  due_date : Option DateTime
  completed : Option Bool
deriving DecidableEq

/-- Modelled from the spec: §7 error taxonomy.  src/internal/errors.py is
not present under src/ (only its importers are); it declares exactly the two
exception classes `NotFoundError` and `AlreadyExistsError` used throughout. -/
inductive Err where
  | notFound
  | alreadyExists
deriving DecidableEq

/-- The state of `InMemoryTaskDB._db : dict[TaskID, Task]`: an
insertion-ordered association list with unique keys (Python dict). -/
abbrev InMemState := List (Int × Task)

/-- Python dict assignment `m[k] = v`: replaces the value in place when the
key is present (keeping its position), otherwise appends the new binding. -/
def dictInsert : InMemState → Int → Task → InMemState
  | [], k, v => [(k, v)]
  | (k', v') :: rest, k, v =>
    if k' = k then (k, v) :: rest else (k', v') :: dictInsert rest k v

/-- Python dict lookup `m[k]` / `k in m` as an optional lookup. -/
def dictGet? (m : InMemState) (k : Int) : Option Task :=
  (m.find? (fun p => p.1 == k)).map Prod.snd

/-- Python `del m[k]` (unique keys, so removing every binding of `k`). -/
def dictDelete (m : InMemState) (k : Int) : InMemState :=
  m.filter (fun p => p.1 != k)

namespace InMemoryTaskDB

/-- `InMemoryTaskDB.post`: `self._db[task.id] = task`. -/
def post (db : InMemState) (task : Task) : InMemState :=
  dictInsert db task.id task

/-- `InMemoryTaskDB.get_all(completed=None, priority=None)`: lists the dict
values, then filters by `completed` and by `priority` when given.  (The
signature has no search parameter.) -/
def get_all (db : InMemState) (completed : Option Bool)
    (priority : Option PrioEnum) : List Task :=
  let tasks := db.map Prod.snd
  let tasks := match completed with
    | none => tasks
    | some c => tasks.filter (fun task => task.completed == c)
  let tasks := match priority with
    | none => tasks
    | some p => tasks.filter (fun task => task.priority == p)
  tasks

/-- `InMemoryTaskDB.get_by_id`: raises `NotFoundError` when the id is
absent. -/
def get_by_id (db : InMemState) (task_id : Int) : Except Err Task :=
  match dictGet? db task_id with
  | none => .error .notFound
  | some task => .ok task

/-- `InMemoryTaskDB.delete`: `del` with the `KeyError` swallowed. -/
def delete (db : InMemState) (task_id : Int) : InMemState :=
  dictDelete db task_id

end InMemoryTaskDB

/-- One row of the SQLite `tasks` table (column types per the CREATE TABLE
in src/internal/taskdb.py: `priority` and `completed` are stored as
integers, `due_date` as a text timestamp). -/
structure SqlRow where
  id : Int
  title : String
  description : Option String
  priority : Nat
  due_date : String
  completed : Nat
deriving DecidableEq

/-- `convert_task_to_sqlite` from src/internal/taskdb.py. -/
def convert_task_to_sqlite (task : Task) : SqlRow :=
  { id := task.id
    title := task.title
    description := task.description
    priority := task.priority.val
    due_date := task.due_date.isoformat
    completed := if task.completed then 1 else 0 }

/-- `convert_sqlite_to_task` from src/internal/taskdb.py.  `PrioEnum(row[3])`
and `fromisoformat(row[4])` raise on malformed data; stored rows are always
well formed (CHECK constraints plus `convert_task_to_sqlite`), so the
defaults taken on failure are never exercised. -/
def convert_sqlite_to_task (row : SqlRow) : Task :=
  { id := row.id
    title := row.title
    description := row.description
    priority := (PrioEnum.ofVal row.priority).getD .high
    due_date := (DateTime.fromisoformat row.due_date).getD default
    completed := row.completed != 0 }

/-- The state of the SQLite `tasks` table: its bag of rows (`id` is the
INTEGER PRIMARY KEY, so rows have unique ids; SELECT order is left
unspecified and observations below compare listings as multisets). -/
abbrev SqlState := List SqlRow

namespace SQLiteTaskDB

/-- `SQLiteTaskDB.post`: `INSERT OR REPLACE` keyed on the primary key —
any existing row with the same id is removed and the new row stored. -/
def post (db : SqlState) (task : Task) : SqlState :=
  let data := convert_task_to_sqlite task
  db.filter (fun row => row.id != data.id) ++ [data]

/-- `SQLiteTaskDB.get_all(completed=None, priority=None)`: SELECT with a
WHERE clause conjoining `completed = ?` (bool parameter adapted to 0/1) and
`priority = ?` (as `int(priority)`) when given, then row conversion.  (The
signature has no search parameter.) -/
def get_all (db : SqlState) (completed : Option Bool)
    (priority : Option PrioEnum) : List Task :=
  let rows := db
  let rows := match completed with
    | none => rows
    | some c => rows.filter (fun row => row.completed == (if c then 1 else 0))
  let rows := match priority with
    | none => rows
    | some p => rows.filter (fun row => row.priority == p.val)
  rows.map convert_sqlite_to_task

/-- `SQLiteTaskDB.get_by_id`: `SELECT ... WHERE id=:id` / `fetchone`;
raises `NotFoundError` when no row matches. -/
def get_by_id (db : SqlState) (task_id : Int) : Except Err Task :=
  match db.find? (fun row => row.id == task_id) with
  | none => .error .notFound
  | some row => .ok (convert_sqlite_to_task row)

/-- `SQLiteTaskDB.delete`: `DELETE ... WHERE id=:id`; no error when the id
is absent. -/
def delete (db : SqlState) (task_id : Int) : SqlState :=
  db.filter (fun row => row.id != task_id)

end SQLiteTaskDB

/-! ## Task Service (src/internal/tasks.py)

The service functions are written against the `TaskReadWriter` protocol;
they are embedded here over the in-memory backend's state (the storage
contract instance whose behavior §4.1 fixes; backend interchangeability is
the subject of `backends_observationally_equivalent`).  `create_task`'s
call to `random.randint(0, ID_MAX)` is modelled by passing the drawn
candidate id explicitly, with `randintSupport` describing the support of
the draw. -/

/-- `ID_MAX` from src/internal/tasks.py. -/
def ID_MAX : Int := 2147483647

/-- The support of Python `random.randint(a, b)`: both endpoints
inclusive. -/
def randintSupport (a b n : Int) : Prop := a ≤ n ∧ n ≤ b

instance (a b n : Int) : Decidable (randintSupport a b n) :=
  inferInstanceAs (Decidable (_ ∧ _))

/-- The `Task(...)` literal that `create_task` constructs: the supplied
request fields, the drawn id, and `completed=False`. -/
def newTask (task_id : Int) (req : CreateTaskReq) : Task :=
  { id := task_id
    title := req.title
    description := req.description
    priority := req.priority
    due_date := req.due_date
    completed := false }

/-- `create_task` from src/internal/tasks.py, with the outcome `task_id` of
`random.randint(0, ID_MAX)` taken as a parameter: probes `get_by_id`; a
successful probe raises `AlreadyExistsError` (the `except` clause catches
only `NotFoundError`); otherwise builds the task with `completed=False` and
the request's fields, posts it and returns it. -/
def create_task (task_id : Int) (db : InMemState) (req : CreateTaskReq) :
    Except Err (Task × InMemState) :=
  match InMemoryTaskDB.get_by_id db task_id with
  | .ok _ => .error .alreadyExists
  | .error _ =>
    .ok (newTask task_id req, InMemoryTaskDB.post db (newTask task_id req))

/-- The store left behind by `create_task`: unchanged when it raises
(the exception propagates before any write). -/
def create_task_state (task_id : Int) (db : InMemState) (req : CreateTaskReq) :
    InMemState :=
  match create_task task_id db req with
  | .ok (_, db') => db'
  | .error _ => db

/-- `get_all_tasks` from src/internal/tasks.py: `return db.get_all()` — it
takes no filter arguments, so the storage call is always the unfiltered
one (Python defaults `completed=None, priority=None`). -/
def get_all_tasks (db : InMemState) : List Task :=
  InMemoryTaskDB.get_all db none none

/-- `get_task_by_id` from src/internal/tasks.py. -/
def get_task_by_id (db : InMemState) (task_id : Int) : Except Err Task :=
  InMemoryTaskDB.get_by_id db task_id

/-- The merge performed by `update_task`:
`task.model_copy(update=req.model_dump(exclude_none=True, exclude={"id"}))` —
null request fields are dropped before the copy, so each field of the
result is the request's value when non-null and the stored value
otherwise. -/
def applyUpdate (task : Task) (req : UpdateTaskReq) : Task :=
  { id := task.id
    title := req.title.getD task.title
    description := match req.description with
      | none => task.description
      | some d => some d
    priority := req.priority.getD task.priority
    due_date := req.due_date.getD task.due_date
    completed := req.completed.getD task.completed }

/-- `update_task` from src/internal/tasks.py: look up, merge, post,
return. -/
def update_task (db : InMemState) (req : UpdateTaskReq) :
    Except Err (Task × InMemState) :=
  match get_task_by_id db req.id with
  | .error e => .error e
  | .ok task =>
    let updated := applyUpdate task req
    .ok (updated, InMemoryTaskDB.post db updated)

/-- `delete_task` from src/internal/tasks.py. -/
def delete_task (db : InMemState) (task_id : Int) : InMemState :=
  InMemoryTaskDB.delete db task_id

/-! ## Observational equivalence of the two backends -/

/-- One storage-contract call (§4.1): the operations the two backends share. -/
inductive Op where
  | post (task : Task)
  | getAll (completed : Option Bool) (priority : Option PrioEnum)
  | getById (task_id : Int)
  | del (task_id : Int)

/-- What a caller observes from one storage call.  `post` and `delete`
return nothing; `get_all` listings are compared as multisets ("order
aside"); `get_by_id` yields a task or `NotFoundError`. -/
inductive Obs where
  | ack
  | listing (tasks : Multiset Task)
  | byId (result : Except Err Task)

/-- One step of the in-memory backend. -/
def stepMem (db : InMemState) : Op → InMemState × Obs
  | .post t => (InMemoryTaskDB.post db t, .ack)
  | .getAll c p => (db, .listing (InMemoryTaskDB.get_all db c p))
  | .getById i => (db, .byId (InMemoryTaskDB.get_by_id db i))
  | .del i => (InMemoryTaskDB.delete db i, .ack)

/-- One step of the SQLite backend. -/
def stepSql (db : SqlState) : Op → SqlState × Obs
  | .post t => (SQLiteTaskDB.post db t, .ack)
  | .getAll c p => (db, .listing (SQLiteTaskDB.get_all db c p))
  | .getById i => (db, .byId (SQLiteTaskDB.get_by_id db i))
  | .del i => (SQLiteTaskDB.delete db i, .ack)

/-- Run a call sequence against the in-memory backend, collecting the
observations. -/
def runMem : InMemState → List Op → List Obs
  | _, [] => []
  | db, op :: ops =>
    let s := stepMem db op
    s.2 :: runMem s.1 ops

/-- Run a call sequence against the SQLite backend, collecting the
observations. -/
def runSql : SqlState → List Op → List Obs
  | _, [] => []
  | db, op :: ops =>
    let s := stepSql db op
    s.2 :: runSql s.1 ops

/-- The task-level filter that `get_all` applies (conjunction of the
optional `completed` and `priority` constraints). -/
def taskMatches (completed : Option Bool) (priority : Option PrioEnum)
    (t : Task) : Bool :=
  (match completed with | none => true | some c => t.completed == c) &&
  (match priority with | none => true | some p => t.priority == p)

/-- The row-level filter that the SQLite `WHERE` clause applies. -/
def rowMatches (completed : Option Bool) (priority : Option PrioEnum)
    (r : SqlRow) : Bool :=
  (match completed with | none => true | some c => r.completed == (if c then 1 else 0)) &&
  (match priority with | none => true | some p => r.priority == p.val)

/-- Converting a task to a row and back is the identity. -/
theorem conv_roundtrip (t : Task) :
    convert_sqlite_to_task (convert_task_to_sqlite t) = t := by
  cases t with
  | mk id title description priority due_date completed =>
    simp only [convert_task_to_sqlite, convert_sqlite_to_task,
      fromisoformat_isoformat, Option.getD_some]
    cases priority <;> cases completed <;> rfl

theorem val_beq_val (a b : PrioEnum) : (a.val == b.val) = (a == b) := by
  cases a <;> cases b <;> rfl

theorem completedInt_beq (a b : Bool) :
    ((if a then (1 : Nat) else 0) == (if b then 1 else 0)) = (a == b) := by
  cases a <;> cases b <;> rfl

/-- The SQLite `WHERE` clause on a converted row agrees with the in-memory
predicate on the task. -/
theorem rowMatches_conv (c : Option Bool) (p : Option PrioEnum) (t : Task) :
    rowMatches c p (convert_task_to_sqlite t) = taskMatches c p t := by
  have hpr : (convert_task_to_sqlite t).priority = t.priority.val := rfl
  have hco : (convert_task_to_sqlite t).completed =
      (if t.completed then 1 else 0) := rfl
  cases c <;> cases p <;>
    simp only [rowMatches, taskMatches, hpr, hco, val_beq_val, completedInt_beq]

theorem inmem_get_all_eq (db : InMemState) (c : Option Bool)
    (p : Option PrioEnum) :
    InMemoryTaskDB.get_all db c p =
      (db.map Prod.snd).filter (fun t => taskMatches c p t) := by
  cases c with
  | none =>
    cases p with
    | none => simp [InMemoryTaskDB.get_all, taskMatches]
    | some q => simp [InMemoryTaskDB.get_all, taskMatches]
  | some b =>
    cases p with
    | none => simp [InMemoryTaskDB.get_all, taskMatches]
    | some q =>
      simp only [InMemoryTaskDB.get_all, taskMatches, List.filter_filter]
      exact List.filter_congr fun a _ => by rw [Bool.and_comm]

theorem sqlite_get_all_eq (db : SqlState) (c : Option Bool)
    (p : Option PrioEnum) :
    SQLiteTaskDB.get_all db c p =
      (db.filter (fun r => rowMatches c p r)).map convert_sqlite_to_task := by
  cases c with
  | none =>
    cases p with
    | none => simp [SQLiteTaskDB.get_all, rowMatches]
    | some q => simp [SQLiteTaskDB.get_all, rowMatches]
  | some b =>
    cases p with
    | none => simp [SQLiteTaskDB.get_all, rowMatches]
    | some q =>
      simp only [SQLiteTaskDB.get_all, rowMatches, List.filter_filter]
      exact congrArg _ (List.filter_congr fun a _ => by rw [Bool.and_comm])

/-- The coupling invariant between the two backends: both key sets are
duplicate-free, in-memory keys agree with the stored task's id, and the
SQLite rows are exactly the converted in-memory tasks, up to order. -/
structure Coupled (mem : InMemState) (sql : SqlState) : Prop where
  memKeys : (mem.map Prod.fst).Nodup
  sqlKeys : (sql.map SqlRow.id).Nodup
  keysId : ∀ e ∈ mem, e.1 = e.2.id
  rowsPerm : sql.Perm (mem.map (fun e => convert_task_to_sqlite e.2))

theorem coupled_nil : Coupled [] [] where
  memKeys := List.nodup_nil
  sqlKeys := List.nodup_nil
  keysId := fun e h => absurd h (List.not_mem_nil e)
  rowsPerm := List.Perm.refl _

/-- `find?` is stable under permutation when at most one element can
match. -/
theorem find?_perm_of_unique {α : Type} {l₁ l₂ : List α} (h : l₁.Perm l₂)
    (p : α → Bool)
    (huniq : ∀ a ∈ l₁, ∀ b ∈ l₁, p a → p b → a = b) :
    l₁.find? p = l₂.find? p := by
  cases h₁ : l₁.find? p with
  | none =>
    rw [List.find?_eq_none] at h₁
    symm
    rw [List.find?_eq_none]
    intro x hx
    exact h₁ x (h.mem_iff.mpr hx)
  | some a =>
    have ha₁ : a ∈ l₁ := List.mem_of_find?_eq_some h₁
    have hpa : p a := List.find?_some h₁
    have h₂ : (l₂.find? p).isSome := by
      rw [List.find?_isSome]
      exact ⟨a, h.mem_iff.mp ha₁, hpa⟩
    cases h₂' : l₂.find? p with
    | none => rw [h₂'] at h₂; simp at h₂
    | some b =>
      have hb₂ : b ∈ l₂ := List.mem_of_find?_eq_some h₂'
      have hpb : p b := List.find?_some h₂'
      rw [huniq a ha₁ b (h.mem_iff.mpr hb₂) hpa hpb]

/-- `find?` only inspects list members, so pointwise-equal predicates give
the same result. -/
theorem find?_congr_mem {α : Type} {l : List α} {p q : α → Bool}
    (h : ∀ a ∈ l, p a = q a) : l.find? p = l.find? q := by
  induction l with
  | nil => rfl
  | cons x xs ih =>
    have hx := h x (List.mem_cons_self x xs)
    simp only [List.find?_cons, hx]
    cases q x
    · exact ih fun a ha => h a (List.mem_cons_of_mem x ha)
    · rfl

theorem mem_keys_dictInsert {m : InMemState} {k j : Int} {v : Task} :
    j ∈ (dictInsert m k v).map Prod.fst ↔ j = k ∨ j ∈ m.map Prod.fst := by
  induction m with
  | nil => simp [dictInsert]
  | cons e rest ih =>
    by_cases hk : e.1 = k
    · simp only [dictInsert]
      rw [if_pos hk]
      simp [hk]
    · simp only [dictInsert]
      rw [if_neg hk]
      simp only [List.map_cons, List.mem_cons, ih]
      tauto

theorem nodup_keys_dictInsert {m : InMemState} {k : Int} {v : Task}
    (h : (m.map Prod.fst).Nodup) : ((dictInsert m k v).map Prod.fst).Nodup := by
  induction m with
  | nil => simp [dictInsert]
  | cons e rest ih =>
    rw [List.map_cons, List.nodup_cons] at h
    by_cases hk : e.1 = k
    · simp only [dictInsert]
      rw [if_pos hk]
      rw [List.map_cons, List.nodup_cons]
      exact ⟨hk ▸ h.1, h.2⟩
    · simp only [dictInsert]
      rw [if_neg hk]
      rw [List.map_cons, List.nodup_cons]
      refine ⟨fun hmem => ?_, ih h.2⟩
      rcases mem_keys_dictInsert.mp hmem with rfl | hmem'
      · exact hk rfl
      · exact h.1 hmem'

theorem mem_dictInsert {m : InMemState} {k : Int} {v : Task} {e : Int × Task}
    (h : e ∈ dictInsert m k v) : e = (k, v) ∨ e ∈ m := by
  induction m with
  | nil => simpa [dictInsert] using h
  | cons e' rest ih =>
    by_cases hk : e'.1 = k
    · simp only [dictInsert] at h
      rw [if_pos hk] at h
      rcases List.mem_cons.mp h with rfl | hmem
      · exact Or.inl rfl
      · exact Or.inr (List.mem_cons_of_mem _ hmem)
    · simp only [dictInsert] at h
      rw [if_neg hk] at h
      rcases List.mem_cons.mp h with rfl | hmem
      · exact Or.inr (List.mem_cons_self _ _)
      · rcases ih hmem with h' | h'
        · exact Or.inl h'
        · exact Or.inr (List.mem_cons_of_mem _ h')

/-- With duplicate-free keys, Python's in-place dict update is, up to
order, "drop any old binding of the key, then append the new one" — the
shape the SQLite `INSERT OR REPLACE` produces. -/
theorem dictInsert_perm {m : InMemState} {k : Int} {v : Task}
    (h : (m.map Prod.fst).Nodup) :
    (dictInsert m k v).Perm (m.filter (fun e => e.1 != k) ++ [(k, v)]) := by
  induction m with
  | nil => simp [dictInsert]
  | cons e rest ih =>
    rw [List.map_cons, List.nodup_cons] at h
    by_cases hk : e.1 = k
    · simp only [dictInsert]
      rw [if_pos hk]
      have hcons : List.filter (fun e' => e'.1 != k) (e :: rest) =
          List.filter (fun e' => e'.1 != k) rest := by
        simp [List.filter_cons, hk]
      rw [hcons]
      have hrest : rest.filter (fun e' => e'.1 != k) = rest := by
        rw [List.filter_eq_self]
        intro a ha
        have : a.1 ≠ k := by
          intro hak
          exact (hk ▸ h.1) (hak ▸ List.mem_map_of_mem Prod.fst ha)
        simpa using this
      rw [hrest]
      exact (List.perm_append_singleton _ _).symm
    · simp only [dictInsert]
      rw [if_neg hk]
      have hcons : List.filter (fun e' => e'.1 != k) (e :: rest) =
          e :: List.filter (fun e' => e'.1 != k) rest := by
        simp [List.filter_cons, hk]
      rw [hcons, List.cons_append]
      exact (ih h.2).cons e

/-- `post` preserves the backend coupling. -/
theorem coupled_post {mem : InMemState} {sql : SqlState}
    (h : Coupled mem sql) (t : Task) :
    Coupled (InMemoryTaskDB.post mem t) (SQLiteTaskDB.post sql t) where
  memKeys := nodup_keys_dictInsert h.memKeys
  sqlKeys := by
    have hid : (convert_task_to_sqlite t).id = t.id := rfl
    simp only [SQLiteTaskDB.post, List.map_append, List.map_cons,
      List.map_nil, hid]
    rw [List.nodup_append]
    refine ⟨((List.filter_sublist sql).map SqlRow.id).nodup h.sqlKeys,
      List.nodup_singleton _, ?_⟩
    intro j hj hj'
    simp only [List.mem_singleton] at hj'
    subst hj'
    obtain ⟨r, hr, hrid⟩ := List.mem_map.mp hj
    have := (List.mem_filter.mp hr).2
    simp only [hid] at this
    rw [hrid] at this
    simp at this
  keysId := by
    intro e he
    rcases mem_dictInsert he with rfl | he'
    · rfl
    · exact h.keysId e he'
  rowsPerm := by
    have hid : (convert_task_to_sqlite t).id = t.id := rfl
    have step1 : (sql.filter (fun r => r.id != t.id)).Perm
        ((mem.map (fun e => convert_task_to_sqlite e.2)).filter
          (fun r => r.id != t.id)) :=
      h.rowsPerm.filter _
    rw [List.filter_map] at step1
    have step2 : mem.filter
        ((fun r : SqlRow => r.id != t.id) ∘ fun e => convert_task_to_sqlite e.2) =
        mem.filter (fun e => e.1 != t.id) := by
      apply List.filter_congr
      intro e he
      have : (convert_task_to_sqlite e.2).id = e.2.id := rfl
      simp only [Function.comp, this, h.keysId e he]
    rw [step2] at step1
    have step3 : (SQLiteTaskDB.post sql t).Perm
        ((mem.filter (fun e => e.1 != t.id) ++ [(t.id, t)]).map
          (fun e => convert_task_to_sqlite e.2)) := by
      simp only [SQLiteTaskDB.post, List.map_append, List.map_cons, List.map_nil]
      exact step1.append (List.Perm.refl _)
    refine step3.trans (List.Perm.map _ ?_)
    exact (dictInsert_perm h.memKeys).symm

/-- `delete` preserves the backend coupling. -/
theorem coupled_delete {mem : InMemState} {sql : SqlState}
    (h : Coupled mem sql) (i : Int) :
    Coupled (InMemoryTaskDB.delete mem i) (SQLiteTaskDB.delete sql i) where
  memKeys :=
    ((List.filter_sublist mem).map Prod.fst).nodup h.memKeys
  sqlKeys :=
    ((List.filter_sublist sql).map SqlRow.id).nodup h.sqlKeys
  keysId := fun e he => h.keysId e (List.mem_filter.mp he).1
  rowsPerm := by
    have step1 := h.rowsPerm.filter (fun r => r.id != i)
    rw [List.filter_map] at step1
    have step2 : mem.filter
        ((fun r : SqlRow => r.id != i) ∘ fun e => convert_task_to_sqlite e.2) =
        mem.filter (fun e => e.1 != i) := by
      apply List.filter_congr
      intro e he
      have : (convert_task_to_sqlite e.2).id = e.2.id := rfl
      simp only [Function.comp, this, h.keysId e he]
    rw [step2] at step1
    exact step1

/-- Coupled states produce the same listing, as a multiset. -/
theorem getAll_obs {mem : InMemState} {sql : SqlState} (h : Coupled mem sql)
    (c : Option Bool) (p : Option PrioEnum) :
    (SQLiteTaskDB.get_all sql c p : Multiset Task) =
      (InMemoryTaskDB.get_all mem c p : Multiset Task) := by
  rw [Multiset.coe_eq_coe, sqlite_get_all_eq, inmem_get_all_eq]
  have step1 := (h.rowsPerm.filter (fun r => rowMatches c p r)).map
    convert_sqlite_to_task
  rw [List.filter_map] at step1
  have step2 : mem.filter
      ((fun r => rowMatches c p r) ∘ fun e => convert_task_to_sqlite e.2) =
      mem.filter (fun e => taskMatches c p e.2) := by
    apply List.filter_congr
    intro e _
    simp only [Function.comp, rowMatches_conv]
  rw [step2] at step1
  have step3 : (mem.filter (fun e => taskMatches c p e.2)).map
      (convert_sqlite_to_task ∘ fun e => convert_task_to_sqlite e.2) =
      (mem.filter (fun e => taskMatches c p e.2)).map Prod.snd := by
    apply List.map_congr_left
    intro e _
    simp only [Function.comp, conv_roundtrip]
  rw [List.map_map, step3] at step1
  have step4 : (mem.map Prod.snd).filter (fun t => taskMatches c p t) =
      (mem.filter ((fun t => taskMatches c p t) ∘ Prod.snd)).map Prod.snd :=
    List.filter_map _ _
  rw [step4]
  exact step1

/-- Coupled states answer `get_by_id` identically (same task or the same
`NotFoundError`). -/
theorem getById_obs {mem : InMemState} {sql : SqlState} (h : Coupled mem sql)
    (i : Int) :
    SQLiteTaskDB.get_by_id sql i = InMemoryTaskDB.get_by_id mem i := by
  have huniq : ∀ a ∈ sql, ∀ b ∈ sql, (a.id == i) → (b.id == i) → a = b := by
    intro a ha b hb hpa hpb
    refine List.inj_on_of_nodup_map h.sqlKeys ha hb ?_
    rw [beq_iff_eq] at hpa hpb
    rw [hpa, hpb]
  have hfind : sql.find? (fun r => r.id == i) =
      ((mem.map (fun e => convert_task_to_sqlite e.2)).find?
        (fun r => r.id == i)) :=
    find?_perm_of_unique h.rowsPerm _ huniq
  rw [List.find?_map] at hfind
  have hcong : mem.find?
      ((fun r : SqlRow => r.id == i) ∘ fun e => convert_task_to_sqlite e.2) =
      mem.find? (fun e => e.1 == i) := by
    apply find?_congr_mem
    intro e he
    have : (convert_task_to_sqlite e.2).id = e.2.id := rfl
    simp only [Function.comp, this, h.keysId e he]
  rw [hcong] at hfind
  simp only [SQLiteTaskDB.get_by_id, InMemoryTaskDB.get_by_id, dictGet?, hfind]
  cases hf : mem.find? (fun e => e.1 == i) with
  | none => rfl
  | some e => simp [conv_roundtrip]

/-- One storage call made against coupled states yields the same
observation and re-establishes the coupling. -/
theorem coupled_step {mem : InMemState} {sql : SqlState} (h : Coupled mem sql)
    (op : Op) :
    (stepSql sql op).2 = (stepMem mem op).2 ∧
      Coupled (stepMem mem op).1 (stepSql sql op).1 := by
  cases op with
  | post t => exact ⟨rfl, coupled_post h t⟩
  | getAll c p =>
    exact ⟨congrArg Obs.listing (getAll_obs h c p), h⟩
  | getById i =>
    exact ⟨congrArg Obs.byId (getById_obs h i), h⟩
  | del i => exact ⟨rfl, coupled_delete h i⟩

theorem run_eq {mem : InMemState} {sql : SqlState} (h : Coupled mem sql)
    (ops : List Op) : runMem mem ops = runSql sql ops := by
  induction ops generalizing mem sql with
  | nil => rfl
  | cons op ops ih =>
    obtain ⟨hobs, hnext⟩ := coupled_step h op
    simp only [runMem, runSql, hobs]
    rw [ih hnext]

/-- C1: The two storage backends are observationally equivalent: every
sequence of post / get_all / get_by_id / delete calls applied from the
empty store yields, call by call, the same observations from
`InMemoryTaskDB` and `SQLiteTaskDB` — listings agree as multisets of
tasks, and `get_by_id` returns the same task, or fails with
`NotFoundError`, in exactly the same cases. -/
theorem backends_observationally_equivalent (ops : List Op) :
    runMem [] ops = runSql [] ops :=
  run_eq coupled_nil ops

/-! ## Pointwise storage properties -/

theorem dictGet?_dictInsert_self (m : InMemState) (k : Int) (v : Task) :
    dictGet? (dictInsert m k v) k = some v := by
  induction m with
  | nil => simp [dictInsert, dictGet?, List.find?]
  | cons e rest ih =>
    by_cases hk : e.1 = k
    · simp only [dictInsert]
      rw [if_pos hk]
      simp [dictGet?, List.find?]
    · simp only [dictInsert]
      rw [if_neg hk]
      have hne : ((e.1 == k) : Bool) = false := by simpa using hk
      simp only [dictGet?, List.find?, hne]
      exact ih

/-- In a well-keyed store (key = task id, as every reachable store is
keyed), a successful lookup at `i` returns a task whose id is `i`. -/
theorem dictGet?_some_id {db : InMemState} {i : Int} {t : Task}
    (hwf : ∀ e ∈ db, e.1 = e.2.id) (h : dictGet? db i = some t) : t.id = i := by
  simp only [dictGet?] at h
  cases hfind : db.find? (fun p => p.1 == i) with
  | none => rw [hfind] at h; cases h
  | some e =>
    rw [hfind] at h
    have he : e ∈ db := List.mem_of_find?_eq_some hfind
    have hkey := List.find?_some hfind
    simp only [beq_iff_eq] at hkey
    have : t = e.2 := by simpa using h.symm
    rw [this, ← hwf e he, hkey]

theorem sqlite_post_get_by_id (db : SqlState) (t : Task) :
    SQLiteTaskDB.get_by_id (SQLiteTaskDB.post db t) t.id = .ok t := by
  simp only [SQLiteTaskDB.post, SQLiteTaskDB.get_by_id]
  rw [List.find?_append]
  have h1 : (db.filter
      (fun r => r.id != (convert_task_to_sqlite t).id)).find?
        (fun r => r.id == t.id) = none := by
    rw [List.find?_eq_none]
    intro r hr
    have hkeep := (List.mem_filter.mp hr).2
    have hid : (convert_task_to_sqlite t).id = t.id := rfl
    rw [hid] at hkeep
    simpa using hkeep
  rw [h1]
  have h2 : (convert_task_to_sqlite t).id = t.id := rfl
  simp [List.find?, h2, conv_roundtrip]

/-- C6: `Post` is an upsert that never errors and round-trips: on either
backend, for every store state and every task `T`, posting `T` succeeds
(post is a total state transformer, whether or not `T.id` was present —
replacing any existing record) and a subsequent `get_by_id T.id` returns
exactly `T`. -/
theorem post_roundtrip (mdb : InMemState) (sdb : SqlState) (t : Task) :
    InMemoryTaskDB.get_by_id (InMemoryTaskDB.post mdb t) t.id = .ok t ∧
      SQLiteTaskDB.get_by_id (SQLiteTaskDB.post sdb t) t.id = .ok t := by
  constructor
  · simp [InMemoryTaskDB.get_by_id, InMemoryTaskDB.post,
      dictGet?_dictInsert_self]
  · exact sqlite_post_get_by_id sdb t

theorem taskMatches_iff (c : Option Bool) (p : Option PrioEnum) (t : Task) :
    taskMatches c p t = true ↔
      (∀ b, c = some b → t.completed = b) ∧
        (∀ q, p = some q → t.priority = q) := by
  cases c <;> cases p <;> simp [taskMatches]

/-- C7: `GetAll`'s membership contract on the storage engine: a task is in
the listing iff it is present in the store and satisfies every supplied
filter — no filter imposes no constraint, `completed=b` keeps exactly the
tasks with that completion flag, `priority=P` exactly that priority, and
supplying both keeps exactly their conjunction. -/
theorem get_all_exactly_filtered (db : InMemState) (c : Option Bool)
    (p : Option PrioEnum) (t : Task) :
    t ∈ InMemoryTaskDB.get_all db c p ↔
      t ∈ db.map Prod.snd ∧
        (∀ b, c = some b → t.completed = b) ∧
        (∀ q, p = some q → t.priority = q) := by
  rw [inmem_get_all_eq, List.mem_filter, taskMatches_iff]

/-! ## Task Service claims -/

/-- C2: `update_task` is a sparse merge: on a store holding a task `t`
under the requested id, it succeeds, overwrites exactly the non-null
request fields, leaves every null (absent) field unchanged, persists the
merged task and returns it; with every optional field absent the returned
task equals the pre-update task; and on an id absent from the store it
fails with `NotFound`. -/
theorem update_task_sparse_merge (db : InMemState) (req : UpdateTaskReq)
    (hwf : ∀ e ∈ db, e.1 = e.2.id) :
    (∀ t, dictGet? db req.id = some t →
      update_task db req =
        .ok (applyUpdate t req, InMemoryTaskDB.post db (applyUpdate t req)) ∧
      (applyUpdate t req).id = t.id ∧
      (applyUpdate t req).title = req.title.getD t.title ∧
      (applyUpdate t req).description =
        (match req.description with
          | none => t.description
          | some d => some d) ∧
      (applyUpdate t req).priority = req.priority.getD t.priority ∧
      (applyUpdate t req).due_date = req.due_date.getD t.due_date ∧
      (applyUpdate t req).completed = req.completed.getD t.completed ∧
      dictGet? (InMemoryTaskDB.post db (applyUpdate t req)) req.id =
        some (applyUpdate t req) ∧
      (req.title = none → req.description = none → req.priority = none →
        req.due_date = none → req.completed = none → applyUpdate t req = t)) ∧
    (dictGet? db req.id = none → update_task db req = .error .notFound) := by
  constructor
  · intro t hget
    have hok : update_task db req =
        .ok (applyUpdate t req, InMemoryTaskDB.post db (applyUpdate t req)) := by
      simp [update_task, get_task_by_id, InMemoryTaskDB.get_by_id, hget]
    have hid : (applyUpdate t req).id = t.id := rfl
    have htid : t.id = req.id := dictGet?_some_id hwf hget
    refine ⟨hok, hid, rfl, rfl, rfl, rfl, rfl, ?_, ?_⟩
    · have := dictGet?_dictInsert_self db (applyUpdate t req).id (applyUpdate t req)
      simpa [InMemoryTaskDB.post, hid, htid] using this
    · intro h1 h2 h3 h4 h5
      cases t
      simp [applyUpdate, h1, h2, h3, h4, h5]
  · intro hnone
    simp [update_task, get_task_by_id, InMemoryTaskDB.get_by_id, hnone]

/-- C3: when the drawn candidate id is already present, `create_task`
raises `AlreadyExistsError` before any write, so the store is unchanged:
no task is added, removed, or modified. -/
theorem create_task_conflict_leaves_store (task_id : Int) (db : InMemState)
    (req : CreateTaskReq) (t : Task) (h : dictGet? db task_id = some t) :
    create_task task_id db req = .error .alreadyExists ∧
      create_task_state task_id db req = db := by
  have hprobe : InMemoryTaskDB.get_by_id db task_id = .ok t := by
    simp [InMemoryTaskDB.get_by_id, h]
  constructor
  · simp [create_task, hprobe]
  · simp [create_task_state, create_task, hprobe]

/-- C5 (code evaluation): the code's `get_all_tasks` accepts no filter at
all — it always performs the unfiltered `get_all()` call, returning every
stored task regardless of any intended completed / priority / search
constraint. -/
theorem get_all_tasks_is_always_unfiltered (db : InMemState) :
    get_all_tasks db = db.map Prod.snd := by
  simp [get_all_tasks, InMemoryTaskDB.get_all]

/-- Fixture date used by concrete stores below. -/
def dt0 : DateTime := ⟨2024, 1, 1, 12, 0, 0, by omega⟩

/-- Fixture: a store with two tasks that agree on every filterable column
but differ in title. -/
def taskAlpha : Task := ⟨1, "alpha", none, .high, dt0, false⟩

def taskBeta : Task := ⟨2, "beta", none, .high, dt0, false⟩

def dbSearch : InMemState :=
  InMemoryTaskDB.post (InMemoryTaskDB.post [] taskAlpha) taskBeta

/-- C4 (code evaluation): the storage engine cannot express the specified
search filter.  `"alpha"` is a case-insensitive substring of `taskAlpha`'s
title only, so `GetAll(search="alpha")` would have to return exactly
`[taskAlpha]`; but the code's `get_all` takes only the `completed` and
`priority` parameters, and no choice of them returns that listing (the
two stored tasks agree on both columns). -/
theorem get_all_cannot_express_search :
    ∀ (c : Option Bool) (p : Option PrioEnum),
      InMemoryTaskDB.get_all dbSearch c p ≠ [taskAlpha] := by decide

/-! ## Id generation (C8), title validation (C9), null updates (C10) -/

/-- Fixture create request (the tasks_test.py sample). -/
def reqNew : CreateTaskReq := ⟨"New Task", some "A new task to create", .high, dt0⟩

/-- C8 counterexample: `random.randint(0, ID_MAX)` is inclusive at both
ends, so the candidate id 0 is drawable; it falsifies "every generated id
satisfies 1 ≤ i", and `create_task` happily persists a task with id 0. -/
theorem create_task_can_draw_id_zero :
    randintSupport 0 ID_MAX 0 ∧ ¬(1 ≤ (0 : Int)) ∧
      create_task 0 [] reqNew =
        .ok (newTask 0 reqNew, [(0, newTask 0 reqNew)]) :=
  ⟨by decide, by decide, rfl⟩

/-- C8 (amended): the candidate id is drawn from the inclusive range
`0 ≤ i ≤ 2147483647` (`randint(0, ID_MAX)` includes 0, so the lower bound
is 0, not 1); on a store where the draw is absent, `create_task` returns
and persists a task with `completed = false` and exactly the supplied
title, description, priority and due date. -/
theorem create_task_range_spec (task_id : Int) (db : InMemState)
    (req : CreateTaskReq) (hdraw : randintSupport 0 ID_MAX task_id)
    (habs : dictGet? db task_id = none) :
    0 ≤ task_id ∧ task_id ≤ ID_MAX ∧
      create_task task_id db req =
        .ok (newTask task_id req, InMemoryTaskDB.post db (newTask task_id req)) ∧
      dictGet? (InMemoryTaskDB.post db (newTask task_id req)) task_id =
        some (newTask task_id req) ∧
      (newTask task_id req).completed = false ∧
      (newTask task_id req).title = req.title ∧
      (newTask task_id req).description = req.description ∧
      (newTask task_id req).priority = req.priority ∧
      (newTask task_id req).due_date = req.due_date := by
  obtain ⟨h0, h1⟩ := hdraw
  refine ⟨h0, h1, ?_, ?_, rfl, rfl, rfl, rfl, rfl⟩
  · simp [create_task, InMemoryTaskDB.get_by_id, habs]
  · simpa [InMemoryTaskDB.post] using
      dictGet?_dictInsert_self db task_id (newTask task_id req)

theorem create_task_range_spec_witness :
    randintSupport 0 ID_MAX 456 ∧
      create_task 456 [] reqNew =
        .ok (newTask 456 reqNew, InMemoryTaskDB.post [] (newTask 456 reqNew)) :=
  ⟨by decide, (create_task_range_spec 456 [] reqNew (by decide) rfl).2.2.1⟩

/-- The stores reachable from the empty store through the public
operations (`create_task`, `update_task`, raw storage `post`,
`delete_task`). -/
inductive Reachable : InMemState → Prop where
  | empty : Reachable []
  | create (task_id : Int) (req : CreateTaskReq) (db : InMemState) (t : Task)
      (db' : InMemState) :
      Reachable db → create_task task_id db req = .ok (t, db') → Reachable db'
  | update (req : UpdateTaskReq) (db : InMemState) (t : Task)
      (db' : InMemState) :
      Reachable db → update_task db req = .ok (t, db') → Reachable db'
  | post (t : Task) (db : InMemState) :
      Reachable db → Reachable (InMemoryTaskDB.post db t)
  | del (task_id : Int) (db : InMemState) :
      Reachable db → Reachable (delete_task db task_id)

/-- Fixture: a create request whose title is the empty string. -/
def reqEmptyTitle : CreateTaskReq := ⟨"", none, .high, dt0⟩

def taskEmptyTitle : Task := ⟨5, "", none, .high, dt0, false⟩

/-- C9 counterexample: nothing validates titles (`TaskTitle` is a bare
`str`), so one `create_task` call with an empty title reaches a store
containing a task whose title is the empty string. -/
theorem empty_title_store_reachable :
    Reachable [(5, taskEmptyTitle)] ∧
      dictGet? [(5, taskEmptyTitle)] 5 = some taskEmptyTitle ∧
      taskEmptyTitle.title = "" :=
  ⟨Reachable.create 5 reqEmptyTitle [] taskEmptyTitle [(5, taskEmptyTitle)]
      Reachable.empty rfl,
    rfl, rfl⟩

/-- C9 (amended): the operations perform no title validation — a
successful `create_task` persists exactly the supplied title, empty or
not (so empty-title records are reachable); every persisted record does
carry all fields of the task model, `description` being the only nullable
one. -/
theorem create_task_title_passthrough (task_id : Int) (db : InMemState)
    (req : CreateTaskReq) (t : Task) (db' : InMemState)
    (h : create_task task_id db req = .ok (t, db')) :
    t.title = req.title ∧ t = newTask task_id req ∧
      dictGet? db' task_id = some t := by
  have h' := h
  unfold create_task at h'
  cases hg : InMemoryTaskDB.get_by_id db task_id with
  | ok t0 =>
    rw [hg] at h'
    simp at h'
  | error e =>
    rw [hg] at h'
    simp only [Except.ok.injEq, Prod.mk.injEq] at h'
    obtain ⟨ht, hdb⟩ := h'
    subst ht
    subst hdb
    exact ⟨rfl, rfl, by
      simpa [InMemoryTaskDB.post] using
        dictGet?_dictInsert_self db task_id (newTask task_id req)⟩

theorem create_task_title_passthrough_witness :
    taskEmptyTitle.title = reqEmptyTitle.title ∧
      dictGet? [(5, taskEmptyTitle)] 5 = some taskEmptyTitle :=
  ⟨(create_task_title_passthrough 5 [] reqEmptyTitle taskEmptyTitle
      [(5, taskEmptyTitle)] rfl).1,
    (create_task_title_passthrough 5 [] reqEmptyTitle taskEmptyTitle
      [(5, taskEmptyTitle)] rfl).2.2⟩

/-- C10: in `update_task`, a field set to null is indistinguishable from
an absent field — `model_dump(exclude_none=True)` drops every null field
before the merge — so a request with `description=None` leaves the
stored description unchanged, null fields leave their fields unchanged
in general, and no `update_task` call can reset the description of a
task back to null. -/
theorem update_task_null_is_absent (db : InMemState) (req : UpdateTaskReq)
    (t u : Task) (db' : InMemState)
    (hget : dictGet? db req.id = some t)
    (hupd : update_task db req = .ok (u, db')) :
    u = applyUpdate t req ∧
      (req.description = none → u.description = t.description) ∧
      (req.title = none → u.title = t.title) ∧
      (req.priority = none → u.priority = t.priority) ∧
      (req.due_date = none → u.due_date = t.due_date) ∧
      (req.completed = none → u.completed = t.completed) ∧
      (u.description = none → t.description = none) := by
  have hok : update_task db req =
      .ok (applyUpdate t req, InMemoryTaskDB.post db (applyUpdate t req)) := by
    simp [update_task, get_task_by_id, InMemoryTaskDB.get_by_id, hget]
  rw [hok] at hupd
  simp only [Except.ok.injEq, Prod.mk.injEq] at hupd
  obtain ⟨hu, _⟩ := hupd
  subst hu
  refine ⟨rfl, ?_, ?_, ?_, ?_, ?_, ?_⟩
  · intro h; simp [applyUpdate, h]
  · intro h; simp [applyUpdate, h]
  · intro h; simp [applyUpdate, h]
  · intro h; simp [applyUpdate, h]
  · intro h; simp [applyUpdate, h]
  · intro h
    cases hd : req.description with
    | none => simpa [applyUpdate, hd] using h
    | some d => simp [applyUpdate, hd] at h

/-- Fixture task and store (the tasks_test.py sample task). -/
def task1 : Task := ⟨123, "Sample Task", some "This is a sample task", .medium, dt0, false⟩

def db1 : InMemState := [(123, task1)]

/-- Fixture update request setting only `completed`, with `description`
null. -/
def reqNullDesc : UpdateTaskReq := ⟨123, none, none, none, none, some true⟩

theorem update_task_null_is_absent_witness :
    (applyUpdate task1 reqNullDesc).description = task1.description := by
  have h := update_task_null_is_absent db1 reqNullDesc task1
    (applyUpdate task1 reqNullDesc)
    (InMemoryTaskDB.post db1 (applyUpdate task1 reqNullDesc)) rfl rfl
  exact h.2.1 rfl

/-- Fixture update request setting only `title`. -/
def reqTitleOnly : UpdateTaskReq := ⟨123, some "Updated Title", none, none, none, none⟩

theorem update_task_sparse_merge_witness :
    update_task db1 reqTitleOnly =
      .ok (applyUpdate task1 reqTitleOnly,
        InMemoryTaskDB.post db1 (applyUpdate task1 reqTitleOnly)) ∧
      (applyUpdate task1 reqTitleOnly).title = (reqTitleOnly.title).getD task1.title :=
  ⟨((update_task_sparse_merge db1 reqTitleOnly (by decide)).1 task1 rfl).1,
    ((update_task_sparse_merge db1 reqTitleOnly (by decide)).1 task1 rfl).2.2.1⟩

theorem create_task_conflict_leaves_store_witness :
    create_task 123 db1 reqNew = .error .alreadyExists ∧
      create_task_state 123 db1 reqNew = db1 := by
  have h := create_task_conflict_leaves_store 123 db1 reqNew task1 rfl
  exact ⟨h.1, h.2⟩

end TaskAPI
